import Mathlib

/-!
Verification of the BucketFS S3-compatible core: the SigV4 signing code
(`src/plugins/s3-compatible/sigv4.ts`) and the REST client
(`src/plugins/s3-compatible/api.ts`), shallowly embedded in Lean.

Modelling conventions, used throughout:

* Machine integers and byte arrays (`Uint8Array`) are `Nat` and `List Nat`
  with explicit `% 2^32` where 32-bit overflow matters.
* Runtime builtins with a fixed public specification are implemented
  directly: `crypto.subtle.digest("SHA-256", _)` as `sha256` (FIPS 180-4),
  `crypto.subtle.sign("HMAC", _, _)` as `hmacSha256` (RFC 2104),
  `TextEncoder.encode` as `utf8Encode`, and `encodeURIComponent` per
  ECMA-262.
* Runtime builtins whose behaviour is environment-dependent are oracles:
  the wall clock (`ClockNow`), the network (`NetOutcome`), `JSON.parse`
  and `TextDecoder` (fields of `External`), and the default-locale
  collation behind `String.prototype.localeCompare` (`localeCompare`
  below, a documented model that agrees with observed ICU root-collation
  behaviour on ASCII strings).
* `Record<string, string>` values are association lists in insertion
  order with JS object update semantics (`recordSet`, `recordGet`);
  `Array.prototype.sort`, stable per ES2019, is the structural stable
  insertion sort `stableSort`.
* JS exceptions are `Except String` values carrying the `Error` message,
  because the source classifies every error purely by its message text.
-/

/-! ## Bytes, SHA-256, HMAC-SHA256, hex, UTF-8 -/

/-- Right rotation of a 32-bit word, as used by the SHA-256 rounds. -/
def rotr32 (n x : Nat) : Nat := ((x >>> n) ||| (x <<< (32 - n))) % 4294967296

/-- The SHA-256 round constants (FIPS 180-4). -/
def k256 : List Nat := [
  1116352408, 1899447441, 3049323471, 3921009573, 961987163,
  1508970993, 2453635748, 2870763221, 3624381080, 310598401,
  607225278, 1426881987, 1925078388, 2162078206, 2614888103,
  3248222580, 3835390401, 4022224774, 264347078, 604807628,
  770255983, 1249150122, 1555081692, 1996064986, 2554220882,
  2821834349, 2952996808, 3210313671, 3336571891, 3584528711,
  113926993, 338241895, 666307205, 773529912, 1294757372,
  1396182291, 1695183700, 1986661051, 2177026350, 2456956037,
  2730485921, 2820302411, 3259730800, 3345764771, 3516065817,
  3600352804, 4094571909, 275423344, 430227734, 506948616,
  659060556, 883997877, 958139571, 1322822218, 1537002063,
  1747873779, 1955562222, 2024104815, 2227730452, 2361852424,
  2428436474, 2756734187, 3204031479, 3329325298]

/-- The eight 32-bit working variables of the SHA-256 compression loop. -/
structure Sha2St where
  a : Nat
  b : Nat
  c : Nat
  d : Nat
  e : Nat
  f : Nat
  g : Nat
  h : Nat

/-- One SHA-256 round, consuming one round constant and one schedule word. -/
def shaRound (st : Sha2St) (kw : Nat × Nat) : Sha2St :=
  let s1 := (rotr32 6 st.e) ^^^ (rotr32 11 st.e) ^^^ (rotr32 25 st.e)
  let ch := (st.e &&& st.f) ^^^ ((st.e ^^^ 4294967295) &&& st.g)
  let t1 := (st.h + s1 + ch + kw.1 + kw.2) % 4294967296
  let s0 := (rotr32 2 st.a) ^^^ (rotr32 13 st.a) ^^^ (rotr32 22 st.a)
  let mj := (st.a &&& st.b) ^^^ (st.a &&& st.c) ^^^ (st.b &&& st.c)
  let t2 := (s0 + mj) % 4294967296
  ⟨(t1 + t2) % 4294967296, st.a, st.b, st.c, (st.d + t1) % 4294967296, st.e, st.f, st.g⟩

/-- Word access into a schedule list, defaulting to 0 (never reached in range). -/
def word32At (l : List Nat) (i : Nat) : Nat := l.getD i 0

/-- Extend the sixteen message words by the given number of schedule words. -/
def extendSched (w : List Nat) : Nat → List Nat
  | 0 => w
  | n + 1 =>
    let len := w.length
    let s0v := (rotr32 7 (word32At w (len - 15))) ^^^ (rotr32 18 (word32At w (len - 15))) ^^^
      ((word32At w (len - 15)) >>> 3)
    let s1v := (rotr32 17 (word32At w (len - 2))) ^^^ (rotr32 19 (word32At w (len - 2))) ^^^
      ((word32At w (len - 2)) >>> 10)
    extendSched (w ++ [(word32At w (len - 16) + s0v + word32At w (len - 7) + s1v) % 4294967296]) n

/-- Group bytes into big-endian 32-bit words. -/
def toWordsBE : List Nat → List Nat
  | b0 :: b1 :: b2 :: b3 :: rest => (b0 * 16777216 + b1 * 65536 + b2 * 256 + b3) :: toWordsBE rest
  | _ => []

/-- Big-endian bytes of a 32-bit word. -/
def bytesBE4 (x : Nat) : List Nat := [x / 16777216 % 256, x / 65536 % 256, x / 256 % 256, x % 256]

/-- The SHA-256 compression function on one 64-byte block. -/
def shaCompress (hs : List Nat) (block : List Nat) : List Nat :=
  let w := extendSched (toWordsBE block) 48
  let st0 : Sha2St := ⟨word32At hs 0, word32At hs 1, word32At hs 2, word32At hs 3,
    word32At hs 4, word32At hs 5, word32At hs 6, word32At hs 7⟩
  let st := (k256.zip w).foldl shaRound st0
  [(word32At hs 0 + st.a) % 4294967296, (word32At hs 1 + st.b) % 4294967296,
   (word32At hs 2 + st.c) % 4294967296, (word32At hs 3 + st.d) % 4294967296,
   (word32At hs 4 + st.e) % 4294967296, (word32At hs 5 + st.f) % 4294967296,
   (word32At hs 6 + st.g) % 4294967296, (word32At hs 7 + st.h) % 4294967296]

/-- Fuel-driven 64-byte chunking (structural, so the kernel can evaluate it). -/
def chunk64Go : Nat → List Nat → List (List Nat)
  | _, [] => []
  | 0, _ => []
  | fuel + 1, l => l.take 64 :: chunk64Go fuel (l.drop 64)

/-- Split a byte list into 64-byte blocks. -/
def chunk64 (l : List Nat) : List (List Nat) := chunk64Go l.length l

/-- SHA-256 padding: 0x80, zeros to 56 mod 64, then the 64-bit bit length. -/
def shaPad (msg : List Nat) : List Nat :=
  let lm := msg.length
  let z := (120 - ((lm + 1) % 64)) % 64
  msg ++ [128] ++ List.replicate z 0 ++
    [8 * lm / 72057594037927936 % 256, 8 * lm / 281474976710656 % 256,
     8 * lm / 1099511627776 % 256, 8 * lm / 4294967296 % 256,
     8 * lm / 16777216 % 256, 8 * lm / 65536 % 256, 8 * lm / 256 % 256, 8 * lm % 256]

/-- SHA-256 of a byte list, the semantics of `crypto.subtle.digest("SHA-256", _)`. -/
def sha256 (msg : List Nat) : List Nat :=
  let h0 : List Nat := [1779033703, 3144134277, 1013904242,
    2773480762, 1359893119, 2600822924, 528734635, 1541459225]
  ((chunk64 (shaPad msg)).foldl shaCompress h0).flatMap bytesBE4

/-- Lower-case hexadecimal digit, as produced by `b.toString(16)`. -/
def hexDigitL (n : Nat) : Char := if n < 10 then Char.ofNat (48 + n) else Char.ofNat (87 + n)

/-- `hexEncode` from `sigv4.ts`: each byte as two lower-case hex digits. -/
def hexEncode (bytes : List Nat) : String :=
  String.mk (bytes.flatMap (fun b => [hexDigitL (b / 16 % 16), hexDigitL (b % 16)]))

/-- HMAC-SHA256 (RFC 2104), the semantics of the Web Crypto HMAC sign
used by `hmacSha256` in `sigv4.ts`. -/
def hmacSha256 (key msg : List Nat) : List Nat :=
  let k0 := if key.length > 64 then sha256 key else key
  let kp := k0 ++ List.replicate (64 - k0.length) 0
  sha256 ((kp.map (fun b => b ^^^ 92)) ++ sha256 ((kp.map (fun b => b ^^^ 54)) ++ msg))

/-- UTF-8 bytes of one code point. -/
def utf8Char (c : Char) : List Nat :=
  let n := c.toNat
  if n < 128 then [n]
  else if n < 2048 then [192 + n / 64, 128 + n % 64]
  else if n < 65536 then [224 + n / 4096, 128 + n / 64 % 64, 128 + n % 64]
  else [240 + n / 262144, 128 + n / 4096 % 64, 128 + n / 64 % 64, 128 + n % 64]

/-- UTF-8 encoding, the semantics of `new TextEncoder().encode(_)`. -/
def utf8Encode (s : String) : List Nat := s.data.flatMap utf8Char

/-! ## JS string builtins used by the source -/

/-- Whether `pat` occurs contiguously in `l`. -/
def hasSubList : List Char → List Char → Bool
  | pat, [] => pat.isEmpty
  | pat, c :: rest => pat.isPrefixOf (c :: rest) || hasSubList pat rest

/-- `hay.includes(needle)` from JS. -/
def containsSub (needle hay : String) : Bool := hasSubList needle.data hay.data

/-- The whitespace class of the JS regexes and of `String.prototype.trim`
(the ASCII members plus NBSP; the exotic Unicode space members never occur
in the HTTP header values this code handles). -/
def jsWhitespaceChar (c : Char) : Bool :=
  c = ' ' || c = Char.ofNat 9 || c = Char.ofNat 10 || c = Char.ofNat 13 ||
  c = Char.ofNat 11 || c = Char.ofNat 12 || c = Char.ofNat 160

/-- Replace each maximal whitespace run by one space; the flag records
whether the previous character was inside a run. -/
def collapseWsGo : Bool → List Char → List Char
  | _, [] => []
  | inRun, c :: rest =>
    if jsWhitespaceChar c then
      if inRun then collapseWsGo true rest else ' ' :: collapseWsGo true rest
    else c :: collapseWsGo false rest

/-- `value.replace(/\s+/g, " ")` from `sigv4.ts`. -/
def jsCollapseWs (s : String) : String := String.mk (collapseWsGo false s.data)

/-- `value.trim()` from JS. -/
def jsTrim (s : String) : String :=
  String.mk (((s.data.dropWhile jsWhitespaceChar).reverse.dropWhile jsWhitespaceChar).reverse)

/-- Replace every occurrence of `%2F` by `/`, scanning left to right:
`encoded.replace(/%2F/g, "/")` from `createCanonicalUri`. -/
def stripPct2F : List Char → List Char
  | '%' :: '2' :: 'F' :: rest => '/' :: stripPct2F rest
  | c :: rest => c :: stripPct2F rest
  | [] => []

/-- Worker for `splitOnChar`, accumulating the current segment reversed. -/
def splitOnCharGo (sep : Char) : List Char → List Char → List (List Char)
  | [], acc => [acc.reverse]
  | c :: rest, acc =>
    if c = sep then acc.reverse :: splitOnCharGo sep rest []
    else splitOnCharGo sep rest (c :: acc)

/-- `s.split(sep)` for a one-character separator (always at least one piece). -/
def splitOnChar (sep : Char) (l : List Char) : List (List Char) := splitOnCharGo sep l []

/-- The characters `encodeURIComponent` leaves unescaped (ECMA-262):
ASCII alphanumerics and `- _ . ! ~ * ( )` and the apostrophe (code 39). -/
def uriUnreserved (c : Char) : Bool :=
  c.isAlphanum || c = '-' || c = '_' || c = '.' || c = '!' || c = '~' ||
  c = '*' || c = Char.ofNat 39 || c = '(' || c = ')'

/-- Upper-case hexadecimal digit, as used by percent escapes. -/
def hexDigitU (n : Nat) : Char := if n < 10 then Char.ofNat (48 + n) else Char.ofNat (55 + n)

/-- One percent-escaped byte, `%XX` with upper-case hex. -/
def pctByte (b : Nat) : List Char := ['%', hexDigitU (b / 16 % 16), hexDigitU (b % 16)]

/-- `encodeURIComponent` per ECMA-262: unreserved characters unchanged,
everything else percent-escaped per UTF-8 byte. -/
def encodeURIComponent (s : String) : String :=
  String.mk (s.data.flatMap (fun c => if uriUnreserved c then [c] else (utf8Char c).flatMap pctByte))

/-! ## Collation model for `String.prototype.localeCompare`

The source sorts query parameters and headers with the comparator
`a.localeCompare(b)`. In every ECMA-402 runtime (Deno included) this is the
ICU root collation, which is emphatically not code-unit order: letters are
compared case-insensitively first, and case only breaks ties, with lower
case first (observed ICU behaviour, e.g. `"a" < "B" < "b"` and
`"a" < "A"`). The model below reproduces exactly that two-level scheme on
ASCII strings: a primary pass over the lower-cased characters, then a case
pass. For strings whose primary and case weights agree the characters
coincide, so the model is a total order; real ICU additionally treats some
exotic ignorable code points as equal, which never arise in the query
names, values and header names this client produces. -/

/-- Three-way comparison on `Nat`. -/
def natCmp (x y : Nat) : Ordering := if x < y then .lt else if y < x then .gt else .eq

/-- Lexicographic three-way comparison of `Nat` lists. -/
def cmpNatList : List Nat → List Nat → Ordering
  | [], [] => .eq
  | [], _ :: _ => .lt
  | _ :: _, [] => .gt
  | x :: xs, y :: ys => (natCmp x y).then (cmpNatList xs ys)

/-- Primary collation weight of a character: its lower-cased code point. -/
def collPrimary (c : Char) : Nat := c.toLower.toNat

/-- Case-tiebreak weight: upper case after lower case, then the code point
itself (the code point is below 2^21, so the two components never mix). -/
def collTert (c : Char) : Nat := (if c.isUpper then 1 else 0) * 2097152 + c.toNat

/-- Model of `a.localeCompare(b)` under the default locale (see the section
comment above): primary weights first, case weights as tiebreak. -/
def localeCompare (a b : String) : Ordering :=
  (cmpNatList (a.data.map collPrimary) (b.data.map collPrimary)).then
    (cmpNatList (a.data.map collTert) (b.data.map collTert))

/-- A comparator result counts as "less or equal" when it is not `gt`;
`Array.prototype.sort` keeps `a` no later than `b` exactly in this case. -/
def ordLeB (o : Ordering) : Bool :=
  match o with
  | .gt => false
  | _ => true

/-! ## Stable sort, the model of `Array.prototype.sort`

ES2019 requires `Array.prototype.sort` to be stable; for a consistent
comparator its result is therefore exactly the one produced by any stable
sorting algorithm. We use structural insertion sort so that the kernel can
evaluate it on concrete inputs. -/

/-- Insert `x` (an element arriving earlier in the input than everything in
`l`) in front of the first element it compares no greater than. -/
def stInsert (le : α → α → Bool) (x : α) : List α → List α
  | [] => [x]
  | y :: ys => if le x y then x :: y :: ys else y :: stInsert le x ys

/-- Stable insertion sort. -/
def stableSort (le : α → α → Bool) : List α → List α
  | [] => []
  | x :: xs => stInsert le x (stableSort le xs)

/-! ## `sigv4.ts`: data model and canonicalizers -/

/-- `AWSCredentials` from `sigv4.ts`. -/
structure AWSCredentials where
  accessKeyId : String
  secretAccessKey : String

/-- A request body, `Uint8Array | string` in the source. -/
inductive BodyVal where
  | bytes (b : List Nat)
  | str (s : String)

/-- JS truthiness of the optional `body` value: `undefined` and the empty
string are falsy, any `Uint8Array` (even empty) is truthy. -/
def bodyTruthy : Option BodyVal → Bool
  | none => false
  | some (.str s) => !(s == "")
  | some (.bytes _) => true

/-- The bytes of a body: a string body goes through `TextEncoder`. -/
def bodyBytesOf : Option BodyVal → List Nat
  | none => []
  | some (.str s) => utf8Encode s
  | some (.bytes b) => b

/-- The URL model: scheme, host, path and the `searchParams` entries in
insertion order. Models WHATWG `new URL(_)` for absolute URLs without
userinfo, port, query or fragment in the parsed string (the only shapes
this client constructs). -/
structure Url where
  scheme : String
  host : String
  pathname : String
  searchParams : List (String × String)
deriving DecidableEq

/-- `RequestToSign` from `sigv4.ts`; the header record is an association
list in insertion order. -/
structure RequestToSign where
  method : String
  url : Url
  headers : List (String × String)
  body : Option BodyVal

/-- JS object member read `rec[key]` (exact key match). -/
def recordGet : List (String × String) → String → Option String
  | [], _ => none
  | (k, v) :: rest, key => if k = key then some v else recordGet rest key

/-- JS object member write: overwrite in place when the exact key exists,
otherwise append (spread-update and index-assignment both behave so). -/
def recordSet : List (String × String) → String → String → List (String × String)
  | [], key, val => [(key, val)]
  | (k, v) :: rest, key, val =>
    if k = key then (k, val) :: rest else (k, v) :: recordSet rest key val

/-- JS truthiness of an optional string (`undefined` and `""` are falsy). -/
def truthyStr : Option String → Bool
  | none => false
  | some s => !(s == "")

/-- `s.toLowerCase()` from JS, modelled character-wise (it agrees with
the ASCII lower-casing of `Char.toLower` on the header names used here). -/
def jsToLowerCase (s : String) : String := String.mk (s.data.map Char.toLower)

/-- `normalizeHeaderName` from `sigv4.ts`: lower-case the name. -/
def normalizeHeaderName (name : String) : String := jsToLowerCase name

/-- One normalized header entry: lower-cased name, trimmed value with
whitespace runs collapsed — the loop body of `createCanonicalHeaders`. -/
def normalizeHeaderPair (p : String × String) : String × String :=
  (normalizeHeaderName p.1, jsCollapseWs (jsTrim p.2))

/-- The comparator of `createCanonicalHeaders`: `a[0].localeCompare(b[0])`. -/
def hdrCmp (a b : String × String) : Ordering := localeCompare a.1 b.1

/-- Boolean form of `hdrCmp` for the stable sort. -/
def hdrLe (a b : String × String) : Bool := ordLeB (hdrCmp a b)

/-- The two outputs of `createCanonicalHeaders`. -/
structure CanonHeaders where
  headers : String
  signedHeaders : String
deriving DecidableEq

/-- `createCanonicalHeaders` from `sigv4.ts`: normalize every entry, sort
by name with the locale comparator, then join `name:value` lines and the
semicolon-separated name list. -/
def createCanonicalHeaders (headers : List (String × String)) : CanonHeaders :=
  let sorted := stableSort hdrLe (headers.map normalizeHeaderPair)
  { headers := String.intercalate ("\n") (sorted.map (fun p => p.1 ++ ":" ++ p.2)),
    signedHeaders := String.intercalate (";") (sorted.map (fun p => p.1)) }

/-- The comparator of `createCanonicalQueryString`: names first (when they
differ), values as tiebreak, both via `localeCompare`. -/
def qpCmp (a b : String × String) : Ordering :=
  if a.1 ≠ b.1 then localeCompare a.1 b.1 else localeCompare a.2 b.2

/-- Boolean form of `qpCmp` for the stable sort. -/
def qpLe (a b : String × String) : Bool := ordLeB (qpCmp a b)

/-- `createCanonicalQueryString` from `sigv4.ts`: sort the raw entries with
the locale comparator, then percent-encode and join with `&`. Note the
source sorts the raw names and values and encodes afterwards. -/
def createCanonicalQueryString (params : List (String × String)) : String :=
  let sorted := stableSort qpLe params
  String.intercalate ("&")
    (sorted.map (fun p => encodeURIComponent p.1 ++ "=" ++ encodeURIComponent p.2))

/-- `createCanonicalUri` from `sigv4.ts`: encode each path segment with
`encodeURIComponent`, undo `%2F` escapes, re-join with `/`. -/
def createCanonicalUri (pathname : String) : String :=
  let p := if pathname = "" then "/" else pathname
  String.intercalate ("/")
    ((splitOnChar ('/') p.data).map
      (fun seg => String.mk (stripPct2F (encodeURIComponent (String.mk seg)).data)))

/-- The hard-coded empty-body payload hash of `createCanonicalRequest` in
`sigv4.ts` (line 162), transcribed verbatim. -/
def EMPTY_BODY_SHA256_SIGV4 : String :=
  "e3b0c44298fc1c149afbf4c8996fb92427ae41e4649b934ca495991b7852b855"

/-- The payload-hash computation of `createCanonicalRequest`: hash the body
bytes when the body is truthy, else the hard-coded constant. -/
def sigv4PayloadHash (body : Option BodyVal) : String :=
  if bodyTruthy body then hexEncode (sha256 (bodyBytesOf body)) else EMPTY_BODY_SHA256_SIGV4

/-- `createCanonicalRequest` from `sigv4.ts`. -/
def createCanonicalRequest (request : RequestToSign) : String :=
  String.intercalate ("\n")
    [request.method,
     createCanonicalUri request.url.pathname,
     createCanonicalQueryString request.url.searchParams,
     (createCanonicalHeaders request.headers).headers,
     "",
     (createCanonicalHeaders request.headers).signedHeaders,
     sigv4PayloadHash request.body]

/-! ## `sigv4.ts`: signer -/

/-- `createStringToSign` from `sigv4.ts`. -/
def createStringToSign (canonicalRequest date credentialScope : String) : String :=
  String.intercalate ("\n")
    ["AWS4-HMAC-SHA256", date, credentialScope, hexEncode (sha256 (utf8Encode canonicalRequest))]

/-- `getSigningKey` from `sigv4.ts`: the HMAC chain over date, region,
service and the terminator, seeded with `"AWS4" + secretKey`. -/
def getSigningKey (secretKey date region service : String) : List Nat :=
  hmacSha256
    (hmacSha256
      (hmacSha256
        (hmacSha256 (utf8Encode ("AWS4" ++ secretKey)) (utf8Encode date))
        (utf8Encode region))
      (utf8Encode service))
    (utf8Encode ("aws4_request"))

/-- The credential scope string assembled in `signRequest`. -/
def credentialScope (date region service : String) : String :=
  date ++ "/" ++ region ++ "/" ++ service ++ "/aws4_request"

/-- The `Authorization` header assembled at the end of `signRequest`. -/
def authorizationHeader (accessKeyId scope signedHeaders signature : String) : String :=
  "AWS4-HMAC-SHA256 Credential=" ++ accessKeyId ++ "/" ++ scope ++
    ", SignedHeaders=" ++ signedHeaders ++ ", Signature=" ++ signature

/-- The wall-clock oracle: the two slices `signRequest` takes from
`new Date().toISOString()` — the `YYYYMMDD` date and the `HHMMSS` time. -/
structure ClockNow where
  date : String
  time : String

/-- The `dateTime` string of `signRequest`: `date + "T" + time + "Z"`. -/
def awsDateTime (now : ClockNow) : String := now.date ++ "T" ++ now.time ++ "Z"

/-- The header record `signRequest` actually signs: the caller headers,
`host` forced to the URL host, and `x-amz-date` injected only when not
already set to a truthy value. -/
def signHeaders (request : RequestToSign) (dateTime : String) : List (String × String) :=
  let headers0 := recordSet request.headers ("host") request.url.host
  if truthyStr (recordGet headers0 ("x-amz-date")) then headers0
  else recordSet headers0 ("x-amz-date") dateTime

/-- The result of `signRequest`: the signed header record plus the
`Authorization` entry the source spreads onto it. -/
structure SignedRequest where
  headers : List (String × String)
  authorization : String

/-- `signRequest` from `sigv4.ts`, with the clock as an explicit oracle.
Note that `date`, `dateTime`, the credential scope, the string to sign and
the signing key all come from the clock reading `now`; the pre-set
`x-amz-date` header only affects the canonical request. The local `let`s
of the source are factored into the named definitions above. -/
def signRequest (request : RequestToSign) (credentials : AWSCredentials)
    (region : String) (service : String) (now : ClockNow) : SignedRequest :=
  { headers := signHeaders request (awsDateTime now),
    authorization :=
      authorizationHeader credentials.accessKeyId (credentialScope now.date region service)
        (createCanonicalHeaders (signHeaders request (awsDateTime now))).signedHeaders
        (hexEncode (hmacSha256
          (getSigningKey credentials.secretAccessKey now.date region service)
          (utf8Encode (createStringToSign
            (createCanonicalRequest
              { request with headers := signHeaders request (awsDateTime now) })
            (awsDateTime now)
            (credentialScope now.date region service))))) }

/-! ## `api.ts`: endpoint configuration and URL construction -/

/-- `S3EndpointConfig` from `api.ts`; the optional `forcePathStyle` is a
`Bool` because `undefined` and `false` behave identically under `||`. -/
structure S3EndpointConfig where
  endpoint : String
  region : String
  forcePathStyle : Bool
deriving DecidableEq

/-- Parse an absolute URL of the shape `scheme://host/path`: the scheme is
everything before the first colon, the host everything from after `://` to
the first slash, the pathname the rest (see the `Url` doc comment for the
modelled fragment of WHATWG parsing). -/
def parseUrl (s : String) : Url :=
  let d := s.data
  let rest := (d.dropWhile (fun c => !(c = ':'))).drop 3
  { scheme := String.mk (d.takeWhile (fun c => !(c = ':'))),
    host := String.mk (rest.takeWhile (fun c => !(c = '/'))),
    pathname := String.mk (rest.dropWhile (fun c => !(c = '/'))),
    searchParams := [] }

/-- The addressing condition of `s3Request` (`api.ts` lines 43-46): the
config flag, or either of two provider-specific endpoint substrings. -/
def usePathStyle (config : S3EndpointConfig) (endpoint : String) : Bool :=
  config.forcePathStyle || containsSub ("digitaloceanspaces.com") endpoint ||
    containsSub ("r2.cloudflarestorage.com") endpoint

/-- The URL built by `s3Request` (`api.ts` lines 42-53): path-style
`endpoint/bucket/key`, or virtual-hosted with the bucket prepended to the
host name. -/
def buildS3Url (endpoint bucketName objectKey : String) (config : S3EndpointConfig) : Url :=
  if usePathStyle config endpoint then
    parseUrl (endpoint ++ "/" ++ bucketName ++ "/" ++ objectKey)
  else
    let u := parseUrl (endpoint ++ "/" ++ objectKey)
    { u with host := bucketName ++ "." ++ u.host }

/-- The `url.searchParams.set` loop of `s3Request` (`api.ts` lines 56-58). -/
def setQueryParams (u : Url) (queryParams : List (String × String)) : Url :=
  queryParams.foldl (fun u kv => { u with searchParams := recordSet u.searchParams kv.1 kv.2 }) u

/-! ## `api.ts`: request execution -/

/-- Options of `s3Request`, with the source defaults. -/
structure S3RequestOptions where
  method : String := "GET"
  body : Option BodyVal := none
  headers : List (String × String) := []
  queryParams : List (String × String) := []

/-- The observable parts of a `fetch` response used by `s3Request`:
status and status text, the body as text (`response.text()`) and as bytes
(`response.arrayBuffer()`), whether `response.body` is non-null, and the
`content-type` header. -/
structure S3Response where
  status : Nat
  statusText : String
  bodyText : String
  bodyBytes : List Nat
  hasBody : Bool
  contentType : Option String
deriving DecidableEq

/-- The network oracle: either a response, or a transport-level rejection
of `fetch` carrying the `Error` message. -/
inductive NetOutcome where
  | response (r : S3Response)
  | failure (msg : String)

/-- `response.ok`: status in the 2xx range. -/
def respOk (r : S3Response) : Bool := 200 ≤ r.status && r.status < 300

/-- Remaining runtime oracles: `JSON.parse` projected to the `Code` and
`Message` members the source reads from it (`none` models a parse throw),
and `TextDecoder.decode`. -/
structure External where
  jsonCodeMessage : String → Option (Option String × Option String)
  textDecode : List Nat → String

/-- A dynamically-typed success value of `s3Request`: the `{}` returned for
204/no-body responses, a text body, or a byte body. -/
inductive JsValue where
  | emptyObj
  | str (s : String)
  | bytes (b : List Nat)
deriving DecidableEq

/-- Decidable equality of outcomes, to evaluate the embedding on concrete
inputs. -/
instance exceptDecEq {ε α : Type} [DecidableEq ε] [DecidableEq α] : DecidableEq (Except ε α) :=
  fun x y =>
  match x, y with
  | .ok a, .ok b =>
    if h : a = b then isTrue (h ▸ rfl) else isFalse (fun he => h (Except.ok.inj he))
  | .error a, .error b =>
    if h : a = b then isTrue (h ▸ rfl) else isFalse (fun he => h (Except.error.inj he))
  | .ok _, .error _ => isFalse (fun he => Except.noConfusion he)
  | .error _, .ok _ => isFalse (fun he => Except.noConfusion he)

/-- JS `ToString` of a `JsValue`, as applied by `TextEncoder.encode` when
`downloadObjectAsBuffer` receives a non-`Uint8Array` value. -/
def jsToString (ext : External) : JsValue → String
  | .emptyObj => "[object Object]"
  | .str s => s
  | .bytes b => ext.textDecode b

/-- Line-terminator characters, which the `.` of the error-parsing regexes
never matches. -/
def isLineTermChar (c : Char) : Bool :=
  c = Char.ofNat 10 || c = Char.ofNat 13 || c = Char.ofNat 8232 || c = Char.ofNat 8233

/-- Lazy scan for the closing tag: capture characters until the first
occurrence of `closeT`, failing on a line terminator or the end of input —
the semantics of the non-greedy dot-star between the two tags. -/
def scanCap (closeT : List Char) : List Char → Option (List Char)
  | [] => none
  | c :: rest =>
    if closeT.isPrefixOf (c :: rest) then some []
    else if isLineTermChar c then none
    else (scanCap closeT rest).map (fun l => c :: l)

/-- Leftmost match of `openT ... closeT` with a lazy single-line capture,
the semantics of `text.match(/<T>(.*?)<\/T>/)` with capture extraction. -/
def captureBetween (openT closeT : List Char) : List Char → Option (List Char)
  | [] => none
  | c :: rest =>
    if openT.isPrefixOf (c :: rest) then
      match scanCap closeT ((c :: rest).drop openT.length) with
      | some cap => some cap
      | none => captureBetween openT closeT rest
    else captureBetween openT closeT rest

/-- Capture the text of the first `<tag>...</tag>` on one line. -/
def xmlCapture (tag : String) (text : String) : Option String :=
  (captureBetween ("<" ++ tag ++ ">").data ("</" ++ tag ++ ">").data text.data).map String.mk

/-- The error-parsing block of `s3Request` (`api.ts` lines 99-120): the XML
code/message pair when both tags match, otherwise the `JSON.parse` fallback,
otherwise the raw text (whose `Code`/`Message` members are undefined).
Returns `errorCode` (with `error.Code || ""`) and `errorMessage` (with
`error.Message || errorText`). -/
def s3ErrorCodeMsg (ext : External) (errorText : String) : String × String :=
  let parsed : Option String × Option String :=
    match xmlCapture ("Code") errorText, xmlCapture ("Message") errorText with
    | some c, some m => (some c, some m)
    | _, _ =>
      match ext.jsonCodeMessage errorText with
      | some cm => cm
      | none => (none, none)
  (match parsed.1 with
   | some c => c
   | none => "",
   match parsed.2 with
   | some m => if m = "" then errorText else m
   | none => errorText)

/-- The message of the `Error` thrown by `s3Request` for a non-2xx
response (`api.ts` lines 122-132): the `File not found:` form for a 404
with vendor code `NoSuchKey`, the generic form otherwise. -/
def s3ThrownMessage (ext : External) (r : S3Response) : String :=
  let cm := s3ErrorCodeMsg ext r.bodyText
  if r.status = 404 && cm.1 == "NoSuchKey" then
    "File not found: " ++ cm.2
  else
    "S3-compatible API error: " ++ toString r.status ++ " " ++ r.statusText ++
      (if cm.1 ≠ "" then " [" ++ cm.1 ++ "]" else "") ++ " - " ++ cm.2

/-- The response-classification part of `s3Request` (`api.ts` lines
98-147), with the network as an oracle. URL construction and signing
(`buildS3Url`, `setQueryParams`, `signRequest`) happen before the `fetch`
and cannot influence which branch runs, so they are modelled by the
standalone definitions above. A transport rejection propagates unchanged
(there is no try/catch around `fetch`). On success: `{}` for 204 or an
absent body, raw bytes for a declared non-XML/JSON content type, text
otherwise. -/
def s3Request (ext : External) (endpoint bucketName objectKey : String)
    (credentials : AWSCredentials) (config : S3EndpointConfig)
    (options : S3RequestOptions) (net : NetOutcome) : Except String JsValue :=
  match net with
  | .failure m => .error m
  | .response r =>
    if respOk r then
      if r.status = 204 || !r.hasBody then .ok .emptyObj
      else
        match r.contentType with
        | some ct =>
          if !(containsSub ("application/xml") ct) && !(containsSub ("application/json") ct) then
            .ok (.bytes r.bodyBytes)
          else .ok (.str r.bodyText)
        | none => .ok (.str r.bodyText)
    else .error (s3ThrownMessage ext r)

/-! ## `api.ts`: object operations -/

/-- `objectExists` (`api.ts` lines 336-361): HEAD, `true` on success,
`false` when the caught message contains `File not found`, otherwise the
error is re-thrown. -/
def objectExists (ext : External) (endpoint bucketName objectKey : String)
    (credentials : AWSCredentials) (config : S3EndpointConfig)
    (net : NetOutcome) : Except String Bool :=
  match s3Request ext endpoint bucketName objectKey credentials config { method := "HEAD" } net with
  | .ok _ => .ok true
  | .error m => if containsSub ("File not found") m then .ok false else .error m

/-- `downloadObjectAsString` (`api.ts` lines 178-207): GET; a byte result
is decoded to text, any other result is returned as-is; a caught
`File not found` message becomes `null` (`none`), other errors re-throw. -/
def downloadObjectAsString (ext : External) (endpoint bucketName objectKey : String)
    (credentials : AWSCredentials) (config : S3EndpointConfig)
    (net : NetOutcome) : Except String (Option JsValue) :=
  match s3Request ext endpoint bucketName objectKey credentials config { method := "GET" } net with
  | .ok v =>
    match v with
    | .bytes b => .ok (some (.str (ext.textDecode b)))
    | other => .ok (some other)
  | .error m => if containsSub ("File not found") m then .ok none else .error m

/-- `downloadObjectAsBuffer` (`api.ts` lines 212-241): GET; a byte result
is returned as-is, any other result goes through `TextEncoder` (JS
stringifies it first); not-found maps to `null`, other errors re-throw. -/
def downloadObjectAsBuffer (ext : External) (endpoint bucketName objectKey : String)
    (credentials : AWSCredentials) (config : S3EndpointConfig)
    (net : NetOutcome) : Except String (Option JsValue) :=
  match s3Request ext endpoint bucketName objectKey credentials config { method := "GET" } net with
  | .ok v =>
    match v with
    | .bytes b => .ok (some (.bytes b))
    | other => .ok (some (.bytes (utf8Encode (jsToString ext other))))
  | .error m => if containsSub ("File not found") m then .ok none else .error m

/-- `deleteObject` (`api.ts` lines 246-263): a bare DELETE through
`s3Request` with no catch of any kind. -/
def deleteObject (ext : External) (endpoint bucketName objectKey : String)
    (credentials : AWSCredentials) (config : S3EndpointConfig)
    (net : NetOutcome) : Except String Unit :=
  match s3Request ext endpoint bucketName objectKey credentials config { method := "DELETE" } net with
  | .ok _ => .ok ()
  | .error m => .error m

/-- `checkBucketAccess` (`api.ts` lines 366-396): HEAD on the bucket root
(empty object key); `true` on success; every caught error returns `false`
(the 403/Forbidden and 401/Unauthorized tests and the final catch-all all
return `false`), so the function is total into `Bool` and never throws. -/
def checkBucketAccess (ext : External) (endpoint bucketName : String)
    (credentials : AWSCredentials) (config : S3EndpointConfig)
    (net : NetOutcome) : Bool :=
  match s3Request ext endpoint bucketName ("") credentials config
      { method := "HEAD", queryParams := [] } net with
  | .ok _ => true
  | .error m =>
    if containsSub ("403") m || containsSub ("Forbidden") m then false
    else if containsSub ("401") m || containsSub ("Unauthorized") m then false
    else false

/-- The hard-coded empty-body payload hash of `s3Request` in `api.ts`
(line 74), transcribed verbatim. -/
def EMPTY_BODY_SHA256_API : String :=
  "e3b0c44298fc1c149afbf4c8996fb92427ae41e4649b934ca495991b7852b855"

/-- The `x-amz-content-sha256` computation of `s3Request` (`api.ts` lines
66-75): hash the body bytes when the body is truthy, else the hard-coded
constant. -/
def s3PayloadHash (body : Option BodyVal) : String :=
  if bodyTruthy body then hexEncode (sha256 (bodyBytesOf body)) else EMPTY_BODY_SHA256_API

/-! ## Spec-side comparison definition for the canonical query string -/

/-- Byte-wise (code-unit) three-way comparison of strings. -/
def byteCmp (a b : String) : Ordering :=
  cmpNatList (a.data.map Char.toNat) (b.data.map Char.toNat)

/-- Byte-wise order on encoded pairs: name first, value as tiebreak. -/
def bytePairLe (a b : String × String) : Bool :=
  ordLeB ((byteCmp a.1 b.1).then (byteCmp a.2 b.2))

/-- The canonical query string as the specification words it (this
definition follows the spec text, for comparison against the source
definition `createCanonicalQueryString`): percent-encode names and values,
sort the encoded pairs ascending by name then value in byte-wise order,
join `name=value` pairs with `&`. -/
def specByteQueryString (params : List (String × String)) : String :=
  String.intercalate ("&")
    ((stableSort bytePairLe
        (params.map (fun p => (encodeURIComponent p.1, encodeURIComponent p.2)))).map
      (fun p => p.1 ++ "=" ++ p.2))

/-! ## Concrete fixtures for counterexamples and witnesses -/

/-- A concrete oracle assignment: `JSON.parse` always throws and
`TextDecoder` returns the empty string (never reached in the fixtures). -/
def ext0 : External := { jsonCodeMessage := fun _ => none, textDecode := fun _ => "" }

/-- Concrete credentials. -/
def creds0 : AWSCredentials := { accessKeyId := "AKIDEXAMPLE", secretAccessKey := "testsecret" }

/-- A concrete endpoint string. -/
def ep0 : String := "https://s3.us-east-1.amazonaws.com"

/-- A concrete endpoint configuration (virtual-hosted AWS endpoint). -/
def cfg0 : S3EndpointConfig :=
  { endpoint := "https://s3.us-east-1.amazonaws.com",
    region := "us-east-1", forcePathStyle := false }

/-- A request with a pre-set `x-amz-date` header, for the determinism claim. -/
def c1Req : RequestToSign :=
  { method := "GET",
    url := { scheme := "https", host := "examplebucket.s3.us-east-1.amazonaws.com",
             pathname := "/test.txt", searchParams := [] },
    headers := [("x-amz-date", "20240101T000000Z"),
                ("x-amz-content-sha256", EMPTY_BODY_SHA256_API)],
    body := none }

/-- A clock reading on 2024-01-01. -/
def c1NowA : ClockNow := { date := "20240101", time := "000000" }

/-- A clock reading on 2024-01-02, same time of day. -/
def c1NowB : ClockNow := { date := "20240102", time := "000000" }

/-- A clock reading on 2025-03-15. -/
def c1NowC : ClockNow := { date := "20250315", time := "101112" }

/-- A clock reading on 2025-03-16. -/
def c1NowD : ClockNow := { date := "20250316", time := "101112" }

/-- A 500 response whose vendor message happens to contain the text
`File not found`. -/
def c2Resp : S3Response :=
  { status := 500, statusText := "Internal Server Error",
    bodyText := "<Code>InternalError</Code><Message>File not found marker</Message>",
    bodyBytes := [], hasBody := true, contentType := some "application/xml" }

/-- A 403 response whose vendor message happens to contain the text
`File not found`. -/
def c3Resp : S3Response :=
  { status := 403, statusText := "Forbidden",
    bodyText := "<Code>AccessDenied</Code><Message>File not found audit text</Message>",
    bodyBytes := [], hasBody := true, contentType := some "application/xml" }

/-- The standard 404 `NoSuchKey` response of an S3-compatible backend. -/
def resp404 : S3Response :=
  { status := 404, statusText := "Not Found",
    bodyText := "<Code>NoSuchKey</Code><Message>The specified key does not exist.</Message>",
    bodyBytes := [], hasBody := true, contentType := some "application/xml" }

/-- A 204 No Content success response (no body), as a HEAD or DELETE gets. -/
def resp204 : S3Response :=
  { status := 204, statusText := "No Content", bodyText := "", bodyBytes := [],
    hasBody := false, contentType := none }

/-- A 200 success response with a body but status and body shaped like the
204/no-body case is not: used where an ordinary success is needed. -/
def resp200 : S3Response :=
  { status := 200, statusText := "OK", bodyText := "payload", bodyBytes := [112],
    hasBody := true, contentType := some "text/plain" }

/-- A DigitalOcean Spaces endpoint configuration with the path-style flag
off, for the addressing claim. -/
def c9Cfg : S3EndpointConfig :=
  { endpoint := "https://nyc3.digitaloceanspaces.com",
    region := "us-east-1", forcePathStyle := false }

/-! ## General helper lemmas -/

/-- Two appended lists with equal-length first parts agree on those parts. -/
theorem listEqOfAppendSameLen {a b x y : List Char} (hl : a.length = b.length)
    (h : a ++ x = b ++ y) : a = b := by
  have h1 := congrArg (List.take a.length) h
  rwa [List.take_left, hl, List.take_left] at h1

/-- Rebuilding a string from its character list is the identity. -/
theorem strMkData (s : String) : String.mk s.data = s := by
  cases s
  rfl

/-- `Ordering.swap` distributes over `Ordering.then`. -/
theorem ordSwapThen (o p : Ordering) : (o.then p).swap = o.swap.then p.swap := by
  cases o <;> rfl

/-- An `Ordering.then` result is `eq` exactly when both parts are. -/
theorem ordThenEqEq (o p : Ordering) : o.then p = .eq ↔ o = .eq ∧ p = .eq := by
  cases o <;> simp [Ordering.then]

/-- An `Ordering.then` result is `lt` exactly when the first part is `lt`,
or the first part is `eq` and the second is `lt`. -/
theorem ordThenEqLt (o p : Ordering) : o.then p = .lt ↔ o = .lt ∨ (o = .eq ∧ p = .lt) := by
  cases o <;> simp [Ordering.then]

/-- `ordLeB` holds exactly off the `gt` case. -/
theorem ordLeBIff (o : Ordering) : ordLeB o = true ↔ o = .lt ∨ o = .eq := by
  cases o <;> simp [ordLeB]

/-- `swap` is `lt` exactly when the original is `gt`. -/
theorem ordSwapEqLt (o : Ordering) : o.swap = .lt ↔ o = .gt := by
  cases o <;> simp [Ordering.swap]

/-! ## Stable sort: permutation and sortedness -/

/-- Inserting permutes to consing. -/
theorem stInsert_perm (le : α → α → Bool) (x : α) (l : List α) :
    (stInsert le x l).Perm (x :: l) := by
  induction l with
  | nil => exact List.Perm.refl _
  | cons y ys ih =>
    simp only [stInsert]
    split
    · exact List.Perm.refl _
    · exact (List.Perm.cons y ih).trans (List.Perm.swap x y ys)

/-- The stable sort permutes its input. -/
theorem stableSort_perm (le : α → α → Bool) (l : List α) : (stableSort le l).Perm l := by
  induction l with
  | nil => exact List.Perm.refl _
  | cons x xs ih => exact (stInsert_perm le x (stableSort le xs)).trans (List.Perm.cons x ih)

/-- Inserting into a sorted list keeps it sorted, for a transitive total
comparator. -/
theorem stInsert_pairwise (le : α → α → Bool)
    (htrans : ∀ a b c, le a b = true → le b c = true → le a c = true)
    (htot : ∀ a b, le a b = true ∨ le b a = true) (x : α) (l : List α)
    (h : l.Pairwise (fun a b => le a b = true)) :
    (stInsert le x l).Pairwise (fun a b => le a b = true) := by
  induction l with
  | nil => simp [stInsert]
  | cons y ys ih =>
    rcases List.pairwise_cons.mp h with ⟨hy, hys⟩
    simp only [stInsert]
    split
    · rename_i hxy
      refine List.pairwise_cons.mpr ⟨?_, h⟩
      intro z hz
      rcases List.mem_cons.mp hz with rfl | hz
      · exact hxy
      · exact htrans x y z hxy (hy z hz)
    · rename_i hxy
      have hyx : le y x = true := by
        rcases htot x y with h1 | h1
        · exact absurd h1 hxy
        · exact h1
      refine List.pairwise_cons.mpr ⟨?_, ih hys⟩
      intro z hz
      rcases List.mem_cons.mp ((stInsert_perm le x ys).mem_iff.mp hz) with rfl | hz
      · exact hyx
      · exact hy z hz

/-- The stable sort sorts, for a transitive total comparator. -/
theorem stableSort_pairwise (le : α → α → Bool)
    (htrans : ∀ a b c, le a b = true → le b c = true → le a c = true)
    (htot : ∀ a b, le a b = true ∨ le b a = true) (l : List α) :
    (stableSort le l).Pairwise (fun a b => le a b = true) := by
  induction l with
  | nil => simp [stableSort]
  | cons x xs ih => exact stInsert_pairwise le htrans htot x (stableSort le xs) ih

/-- For an antisymmetric comparator, sorting is permutation-invariant. -/
theorem stableSort_eq_of_perm (le : α → α → Bool)
    (htrans : ∀ a b c, le a b = true → le b c = true → le a c = true)
    (htot : ∀ a b, le a b = true ∨ le b a = true)
    (hanti : ∀ a b, le a b = true → le b a = true → a = b)
    {l₁ l₂ : List α} (h : l₁.Perm l₂) : stableSort le l₁ = stableSort le l₂ := by
  letI : IsAntisymm α (fun a b => le a b = true) := ⟨hanti⟩
  have p : (stableSort le l₁).Perm (stableSort le l₂) :=
    ((stableSort_perm le l₁).trans h).trans (stableSort_perm le l₂).symm
  exact List.eq_of_perm_of_sorted p (stableSort_pairwise le htrans htot l₁)
    (stableSort_pairwise le htrans htot l₂)

/-- For a comparator antisymmetric only up to a key, sorting is still
permutation-invariant on lists whose keys are distinct. -/
theorem stableSort_eq_of_perm_keyed {κ : Type} (le : α → α → Bool) (key : α → κ)
    (htrans : ∀ a b c, le a b = true → le b c = true → le a c = true)
    (htot : ∀ a b, le a b = true ∨ le b a = true)
    (hkanti : ∀ a b, le a b = true → le b a = true → key a = key b)
    {l₁ l₂ : List α} (hperm : l₁.Perm l₂) (hnd : (l₁.map key).Nodup) :
    stableSort le l₁ = stableSort le l₂ := by
  letI : IsAntisymm α (fun a b => le a b = true ∧ key a ≠ key b) :=
    ⟨fun a b h1 h2 => absurd (hkanti a b h1.1 h2.1) h1.2⟩
  have p : (stableSort le l₁).Perm (stableSort le l₂) :=
    ((stableSort_perm le l₁).trans hperm).trans (stableSort_perm le l₂).symm
  have keyNd : ∀ (l : List α), (stableSort le l).Perm l → (l.map key).Nodup →
      (stableSort le l).Pairwise (fun a b => key a ≠ key b) := by
    intro l hp hl
    have : ((stableSort le l).map key).Nodup := ((hp.map key).nodup_iff).mpr hl
    exact List.pairwise_map.mp this
  have hnd₂ : (l₂.map key).Nodup := ((hperm.map key).nodup_iff).mp hnd
  have hs₁ : (stableSort le l₁).Pairwise (fun a b => le a b = true ∧ key a ≠ key b) :=
    (stableSort_pairwise le htrans htot l₁).and
      (keyNd l₁ (stableSort_perm le l₁) hnd)
  have hs₂ : (stableSort le l₂).Pairwise (fun a b => le a b = true ∧ key a ≠ key b) :=
    (stableSort_pairwise le htrans htot l₂).and
      (keyNd l₂ (stableSort_perm le l₂) hnd₂)
  exact List.eq_of_perm_of_sorted p hs₁ hs₂

/-! ## Collation model: order properties -/

/-- `natCmp` is `eq` exactly on equal numbers. -/
theorem natCmpEqIff (x y : Nat) : natCmp x y = .eq ↔ x = y := by
  unfold natCmp
  split_ifs <;> simp <;> omega

/-- `natCmp` is `lt` exactly on smaller numbers. -/
theorem natCmpLtIff (x y : Nat) : natCmp x y = .lt ↔ x < y := by
  unfold natCmp
  split_ifs <;> simp <;> omega

/-- Swapping the arguments of `natCmp` swaps the result. -/
theorem natCmpSwap (x y : Nat) : natCmp y x = (natCmp x y).swap := by
  unfold natCmp
  split_ifs <;> first | rfl | omega

/-- Swapping the arguments of `cmpNatList` swaps the result. -/
theorem cmpNatListSwap (a b : List Nat) : cmpNatList b a = (cmpNatList a b).swap := by
  induction a generalizing b with
  | nil => cases b <;> rfl
  | cons x xs ih =>
    cases b with
    | nil => rfl
    | cons y ys =>
      show (natCmp y x).then (cmpNatList ys xs) = ((natCmp x y).then (cmpNatList xs ys)).swap
      rw [natCmpSwap, ih, ordSwapThen]

/-- `cmpNatList` is `eq` exactly on equal lists. -/
theorem cmpNatListEqIff (a b : List Nat) : cmpNatList a b = .eq ↔ a = b := by
  induction a generalizing b with
  | nil => cases b <;> simp [cmpNatList]
  | cons x xs ih =>
    cases b with
    | nil => simp [cmpNatList]
    | cons y ys =>
      show (natCmp x y).then (cmpNatList xs ys) = .eq ↔ _
      rw [ordThenEqEq]
      simp [natCmpEqIff, ih]

/-- Strict transitivity of `cmpNatList`. -/
theorem cmpNatListLtTrans {a b c : List Nat} (h1 : cmpNatList a b = .lt)
    (h2 : cmpNatList b c = .lt) : cmpNatList a c = .lt := by
  induction a generalizing b c with
  | nil =>
    cases b with
    | nil => exact absurd h1 (by simp [cmpNatList])
    | cons y ys =>
      cases c with
      | nil => exact absurd h2 (by simp [cmpNatList])
      | cons z zs => simp [cmpNatList]
  | cons x xs ih =>
    cases b with
    | nil => exact absurd h1 (by simp [cmpNatList])
    | cons y ys =>
      cases c with
      | nil => exact absurd h2 (by simp [cmpNatList])
      | cons z zs =>
        have h1' := (ordThenEqLt _ _).mp h1
        have h2' := (ordThenEqLt _ _).mp h2
        show (natCmp x z).then (cmpNatList xs zs) = .lt
        rw [ordThenEqLt]
        rcases h1' with hxy | ⟨hxy, hxs⟩
        · rcases h2' with hyz | ⟨hyz, hys⟩
          · exact Or.inl ((natCmpLtIff x z).mpr
              (Nat.lt_trans ((natCmpLtIff x y).mp hxy) ((natCmpLtIff y z).mp hyz)))
          · rw [← (natCmpEqIff y z).mp hyz]
            exact Or.inl hxy
        · rcases h2' with hyz | ⟨hyz, hys⟩
          · rw [(natCmpEqIff x y).mp hxy]
            exact Or.inl hyz
          · refine Or.inr ⟨?_, ih hxs hys⟩
            rw [(natCmpEqIff x y).mp hxy]
            exact hyz

/-- Every character code point is below 2^21. -/
theorem charToNatLtBound (c : Char) : c.toNat < 2097152 := by
  have heq : c.toNat = c.val.toNat := rfl
  rcases c.valid with h | ⟨_, h⟩ <;> omega

/-- Characters are determined by their code points. -/
theorem charEqOfToNat {a b : Char} (h : a.toNat = b.toNat) : a = b := by
  have := congrArg Char.ofNat h
  rwa [Char.ofNat_toNat, Char.ofNat_toNat] at this

/-- The case-tiebreak weight is injective. -/
theorem collTertInj {a b : Char} (h : collTert a = collTert b) : a = b := by
  have ha := charToNatLtBound a
  have hb := charToNatLtBound b
  unfold collTert at h
  apply charEqOfToNat
  cases h1 : a.isUpper <;> cases h2 : b.isUpper <;> simp [h1, h2] at h <;> omega

/-- `localeCompare` is `eq` exactly on equal strings, so the modelled
collation is a total order. -/
theorem lcEqIff (a b : String) : localeCompare a b = .eq ↔ a = b := by
  constructor
  · intro h
    unfold localeCompare at h
    rcases (ordThenEqEq _ _).mp h with ⟨_, h2⟩
    have := (cmpNatListEqIff _ _).mp h2
    apply String.ext
    revert this
    generalize a.data = la
    generalize b.data = lb
    intro hmap
    induction la generalizing lb with
    | nil => cases lb with
      | nil => rfl
      | cons y ys => exact absurd hmap (by simp)
    | cons x xs ih =>
      cases lb with
      | nil => exact absurd hmap (by simp)
      | cons y ys =>
        simp only [List.map_cons, List.cons.injEq] at hmap
        exact congrArg₂ List.cons (collTertInj hmap.1) (ih ys hmap.2)
  · intro h
    subst h
    unfold localeCompare
    rw [(cmpNatListEqIff _ _).mpr rfl, (cmpNatListEqIff _ _).mpr rfl]
    rfl

/-- Swapping the arguments of `localeCompare` swaps the result. -/
theorem lcSwap (a b : String) : localeCompare b a = (localeCompare a b).swap := by
  unfold localeCompare
  rw [cmpNatListSwap, cmpNatListSwap (a.data.map collTert), ordSwapThen]

/-- Strict transitivity of `localeCompare`. -/
theorem lcLtTrans {a b c : String} (h1 : localeCompare a b = .lt)
    (h2 : localeCompare b c = .lt) : localeCompare a c = .lt := by
  unfold localeCompare at h1 h2 ⊢
  rw [ordThenEqLt] at h1 h2 ⊢
  rcases h1 with hp1 | ⟨hp1, ht1⟩
  · rcases h2 with hp2 | ⟨hp2, ht2⟩
    · exact Or.inl (cmpNatListLtTrans hp1 hp2)
    · rw [← (cmpNatListEqIff _ _).mp hp2]
      exact Or.inl hp1
  · rcases h2 with hp2 | ⟨hp2, ht2⟩
    · rw [(cmpNatListEqIff _ _).mp hp1]
      exact Or.inl hp2
    · refine Or.inr ⟨?_, cmpNatListLtTrans ht1 ht2⟩
      rw [(cmpNatListEqIff _ _).mp hp1]
      exact hp2

/-- Non-strict transitivity of the modelled collation. -/
theorem lcLeTrans {a b c : String} (h1 : ordLeB (localeCompare a b) = true)
    (h2 : ordLeB (localeCompare b c) = true) : ordLeB (localeCompare a c) = true := by
  rw [ordLeBIff] at h1 h2 ⊢
  rcases h1 with h1 | h1
  · rcases h2 with h2 | h2
    · exact Or.inl (lcLtTrans h1 h2)
    · rw [← (lcEqIff b c).mp h2]
      exact Or.inl h1
  · rw [(lcEqIff a b).mp h1]
    rcases h2 with h2 | h2
    · exact Or.inl h2
    · exact Or.inr h2

/-- Totality of the modelled collation. -/
theorem lcLeTotal (a b : String) :
    ordLeB (localeCompare a b) = true ∨ ordLeB (localeCompare b a) = true := by
  cases h : localeCompare a b
  · exact Or.inl (by simp [ordLeB])
  · exact Or.inl (by simp [ordLeB])
  · right
    rw [lcSwap, h]
    rfl

/-! ## The two source comparators as orders -/

/-- The query comparator in `Ordering.then` form: the `a[0] !== b[0]` test
only short-circuits what the lexicographic composition computes anyway,
because the modelled collation is `eq` exactly on equal strings. -/
theorem qpCmpThen (a b : String × String) :
    qpCmp a b = (localeCompare a.1 b.1).then (localeCompare a.2 b.2) := by
  unfold qpCmp
  split
  · rename_i hne
    cases h : localeCompare a.1 b.1
    · rfl
    · exact absurd ((lcEqIff _ _).mp h) hne
    · rfl
  · rename_i heq
    rw [not_not] at heq
    rw [(lcEqIff a.1 b.1).mpr heq]
    rfl

/-- `qpCmp` is `eq` exactly on equal pairs. -/
theorem qpCmpEqIff (a b : String × String) : qpCmp a b = .eq ↔ a = b := by
  rw [qpCmpThen, ordThenEqEq, lcEqIff, lcEqIff]
  constructor
  · intro ⟨h1, h2⟩
    exact Prod.ext h1 h2
  · intro h
    exact ⟨congrArg Prod.fst h, congrArg Prod.snd h⟩

/-- Swapping the arguments of `qpCmp` swaps the result. -/
theorem qpCmpSwap (a b : String × String) : qpCmp b a = (qpCmp a b).swap := by
  rw [qpCmpThen, qpCmpThen, lcSwap, lcSwap (a.2), ordSwapThen]

/-- Strict transitivity of `qpCmp`. -/
theorem qpCmpLtTrans {a b c : String × String} (h1 : qpCmp a b = .lt)
    (h2 : qpCmp b c = .lt) : qpCmp a c = .lt := by
  rw [qpCmpThen, ordThenEqLt] at h1 h2 ⊢
  rcases h1 with hp1 | ⟨hp1, ht1⟩
  · rcases h2 with hp2 | ⟨hp2, ht2⟩
    · exact Or.inl (lcLtTrans hp1 hp2)
    · rw [← (lcEqIff _ _).mp hp2]
      exact Or.inl hp1
  · rcases h2 with hp2 | ⟨hp2, ht2⟩
    · rw [(lcEqIff _ _).mp hp1]
      exact Or.inl hp2
    · refine Or.inr ⟨?_, lcLtTrans ht1 ht2⟩
      rw [(lcEqIff _ _).mp hp1]
      exact hp2

/-- Transitivity of the boolean query comparator. -/
theorem qpLeTrans (a b c : String × String) (h1 : qpLe a b = true) (h2 : qpLe b c = true) :
    qpLe a c = true := by
  unfold qpLe at h1 h2 ⊢
  rw [ordLeBIff] at h1 h2 ⊢
  rcases h1 with h1 | h1
  · rcases h2 with h2 | h2
    · exact Or.inl (qpCmpLtTrans h1 h2)
    · rw [← (qpCmpEqIff b c).mp h2]
      exact Or.inl h1
  · rw [(qpCmpEqIff a b).mp h1]
    exact h2.imp id id

/-- Totality of the boolean query comparator. -/
theorem qpLeTotal (a b : String × String) : qpLe a b = true ∨ qpLe b a = true := by
  unfold qpLe
  cases h : qpCmp a b
  · exact Or.inl (by simp [ordLeB])
  · exact Or.inl (by simp [ordLeB])
  · right
    rw [qpCmpSwap, h]
    rfl

/-- Antisymmetry of the boolean query comparator. -/
theorem qpLeAntisym (a b : String × String) (h1 : qpLe a b = true) (h2 : qpLe b a = true) :
    a = b := by
  unfold qpLe at h1 h2
  rw [ordLeBIff] at h1 h2
  rw [qpCmpSwap] at h2
  apply (qpCmpEqIff a b).mp
  rcases h1 with h1 | h1
  · rcases h2 with h2 | h2
    · rw [h1] at h2
      exact absurd h2 (by simp [Ordering.swap])
    · rw [h1] at h2
      exact absurd h2 (by simp [Ordering.swap])
  · exact h1

/-- Transitivity of the boolean header comparator (names only). -/
theorem hdrLeTrans (a b c : String × String) (h1 : hdrLe a b = true) (h2 : hdrLe b c = true) :
    hdrLe a c = true := by
  unfold hdrLe hdrCmp at h1 h2 ⊢
  exact lcLeTrans h1 h2

/-- Totality of the boolean header comparator. -/
theorem hdrLeTotal (a b : String × String) : hdrLe a b = true ∨ hdrLe b a = true := by
  unfold hdrLe hdrCmp
  exact lcLeTotal a.1 b.1

/-- The header comparator is antisymmetric up to the header name. -/
theorem hdrLeKeyAntisym (a b : String × String) (h1 : hdrLe a b = true)
    (h2 : hdrLe b a = true) : a.1 = b.1 := by
  unfold hdrLe hdrCmp at h1 h2
  rw [ordLeBIff] at h1 h2
  rw [lcSwap] at h2
  apply (lcEqIff a.1 b.1).mp
  rcases h1 with h1 | h1
  · rw [h1] at h2
    rcases h2 with h2 | h2 <;> exact absurd h2 (by simp [Ordering.swap])
  · exact h1

/-! ## Substring and `s3Request` evaluation helpers -/

/-- An initial segment of `q` is one of `q ++ m`. -/
theorem isPrefixOfAppendR (p : List Char) :
    ∀ (q m : List Char), p.isPrefixOf q = true → p.isPrefixOf (q ++ m) = true := by
  induction p with
  | nil =>
    intro q m _
    cases hqm : q ++ m <;> simp [List.isPrefixOf]
  | cons a as ih =>
    intro q m h
    cases q with
    | nil => exact absurd h (by simp [List.isPrefixOf])
    | cons b bs =>
      simp only [List.isPrefixOf, Bool.and_eq_true] at h
      simp only [List.cons_append, List.isPrefixOf, Bool.and_eq_true]
      exact ⟨h.1, ih bs m h.2⟩

/-- A list that begins with `p` contains `p`. -/
theorem hasSubListOfPre (p q m : List Char) (h : p.isPrefixOf q = true) :
    hasSubList p (q ++ m) = true := by
  cases q with
  | nil =>
    cases p with
    | nil =>
      cases m with
      | nil => rfl
      | cons c cs => simp [hasSubList, List.isPrefixOf]
    | cons a as => exact absurd h (by simp [List.isPrefixOf])
  | cons c q' =>
    simp only [List.cons_append, hasSubList, Bool.or_eq_true]
    exact Or.inl (by
      have := isPrefixOfAppendR p (c :: q') m h
      simpa [List.cons_append] using this)

/-- `containsSub` holds whenever the needle starts the haystack. -/
theorem containsSubOfPre (a b m : String) (h : a.data.isPrefixOf b.data = true) :
    containsSub a (b ++ m) = true := by
  unfold containsSub
  rw [String.data_append]
  exact hasSubListOfPre _ _ _ h

/-- A 2xx response makes `s3Request` succeed (with some value). -/
theorem s3RequestOkExists (ext : External) (e b k : String) (creds : AWSCredentials)
    (cfg : S3EndpointConfig) (opts : S3RequestOptions) (r : S3Response)
    (hok : respOk r = true) :
    ∃ v, s3Request ext e b k creds cfg opts (.response r) = .ok v := by
  simp only [s3Request, hok, if_true]
  split
  · exact ⟨_, rfl⟩
  · cases hct : r.contentType with
    | none => exact ⟨_, rfl⟩
    | some ct =>
      dsimp only
      split
      · exact ⟨_, rfl⟩
      · exact ⟨_, rfl⟩

/-- A non-2xx response makes `s3Request` throw the classified message. -/
theorem s3RequestErr (ext : External) (e b k : String) (creds : AWSCredentials)
    (cfg : S3EndpointConfig) (opts : S3RequestOptions) (r : S3Response)
    (hok : respOk r = false) :
    s3Request ext e b k creds cfg opts (.response r) = .error (s3ThrownMessage ext r) := by
  simp [s3Request, hok]

/-- A transport failure propagates unchanged through `s3Request`. -/
theorem s3RequestFailure (ext : External) (e b k : String) (creds : AWSCredentials)
    (cfg : S3EndpointConfig) (opts : S3RequestOptions) (m : String) :
    s3Request ext e b k creds cfg opts (.failure m) = .error m := rfl

/-- For a 404 response with vendor code `NoSuchKey`, the thrown message is
the `File not found:` form. -/
theorem s3ThrownMessage404 (ext : External) (r : S3Response) (hst : r.status = 404)
    (hcode : (s3ErrorCodeMsg ext r.bodyText).1 = "NoSuchKey") :
    s3ThrownMessage ext r = "File not found: " ++ (s3ErrorCodeMsg ext r.bodyText).2 := by
  simp [s3ThrownMessage, hst, hcode]

/-- The `File not found:` form contains the caught marker text. -/
theorem notFoundMsgContains (m : String) :
    containsSub ("File not found") ("File not found: " ++ m) = true :=
  containsSubOfPre _ _ m (by decide)

/-! ## Authorization-header inequality helpers -/

/-- Credential scopes built from equal-length distinct dates differ. -/
theorem credentialScopeNe {d₁ d₂ r s : String} (hl : d₁.length = d₂.length)
    (hne : d₁ ≠ d₂) : credentialScope d₁ r s ≠ credentialScope d₂ r s := by
  intro h
  apply hne
  have hd := congrArg String.data h
  simp only [credentialScope, String.data_append, List.append_assoc] at hd
  exact String.ext (listEqOfAppendSameLen hl hd)

/-- Credential scopes built from equal-length dates have equal length. -/
theorem credScopeLenEq {d₁ d₂ r s : String} (hl : d₁.length = d₂.length) :
    (credentialScope d₁ r s).length = (credentialScope d₂ r s).length := by
  simp [credentialScope, String.length_append, hl]

/-- Authorization headers built over equal-length distinct credential
scopes differ, whatever the signed-header lists and signatures are. -/
theorem authorizationHeaderNe {k sc₁ sc₂ sh₁ sh₂ sg₁ sg₂ : String}
    (hl : sc₁.length = sc₂.length) (hne : sc₁ ≠ sc₂) :
    authorizationHeader k sc₁ sh₁ sg₁ ≠ authorizationHeader k sc₂ sh₂ sg₂ := by
  intro h
  apply hne
  have hd := congrArg String.data h
  simp only [authorizationHeader, String.data_append, List.append_assoc] at hd
  have h1 := List.append_cancel_left hd
  have h2 := List.append_cancel_left h1
  have h3 := List.append_cancel_left h2
  exact String.ext (listEqOfAppendSameLen hl h3)

/-! ## Claim C1: determinism of `signRequest` -/

/-- C1 (amended): even with an identical pre-set `x-amz-date` header, two
invocations of `signRequest` whose clock readings carry different (equal
length) UTC dates produce different results — the credential scope inside
the `Authorization` header embeds the clock date, not the header value. -/
theorem signRequest_clock_dependence (request : RequestToSign)
    (credentials : AWSCredentials) (region service : String) (n₁ n₂ : ClockNow)
    (_hx : truthyStr (recordGet request.headers ("x-amz-date")) = true)
    (hl : n₁.date.length = n₂.date.length) (hne : n₁.date ≠ n₂.date) :
    signRequest request credentials region service n₁ ≠
      signRequest request credentials region service n₂ := by
  intro h
  have ha := congrArg SignedRequest.authorization h
  simp only [signRequest] at ha
  exact absurd ha (authorizationHeaderNe (credScopeLenEq hl) (credentialScopeNe hl hne))

/-- C1 counterexample: a concrete request with `x-amz-date` pre-set,
signed under clocks one day apart, yields different results — the claim
that the output is identical regardless of when each invocation runs fails
on the code. -/
theorem signRequest_not_time_independent :
    truthyStr (recordGet c1Req.headers ("x-amz-date")) = true ∧
    c1NowA.date ≠ c1NowB.date ∧
    signRequest c1Req creds0 ("us-east-1") ("s3") c1NowA ≠
      signRequest c1Req creds0 ("us-east-1") ("s3") c1NowB := by
  refine ⟨by decide, by decide, ?_⟩
  intro h
  have ha := congrArg SignedRequest.authorization h
  simp only [signRequest] at ha
  exact absurd ha (authorizationHeaderNe (by decide) (by decide))

/-- C1 witness: the amended theorem applied at a concrete input. -/
theorem signRequest_clock_dependence_witness :
    signRequest c1Req creds0 ("us-east-1") ("s3") c1NowC ≠
      signRequest c1Req creds0 ("us-east-1") ("s3") c1NowD :=
  signRequest_clock_dependence c1Req creds0 ("us-east-1") ("s3") c1NowC c1NowD
    (by decide) (by decide) (by decide)

/-! ## Claim C4: the empty-body payload hash constants -/

/-- C4: both places that supply a payload hash for a body-less request —
`createCanonicalRequest` in `sigv4.ts` and `s3Request` in `api.ts` — use a
64-character constant equal to the hex SHA-256 digest of the empty byte
string; an empty string body takes the same constant branch. -/
theorem empty_payload_hash_correct :
    sigv4PayloadHash none = hexEncode (sha256 []) ∧
    s3PayloadHash none = hexEncode (sha256 []) ∧
    sigv4PayloadHash (some (.str "")) = hexEncode (sha256 []) ∧
    EMPTY_BODY_SHA256_SIGV4.length = 64 ∧ EMPTY_BODY_SHA256_API.length = 64 ∧
    EMPTY_BODY_SHA256_SIGV4 = EMPTY_BODY_SHA256_API := by
  decide

/-! ## Claim C6: `checkBucketAccess` is fail-closed and never throws -/

/-- C6: `checkBucketAccess` (a total `Bool`-valued function: every caught
error returns a boolean, so it never throws) returns `true` exactly when
the underlying request gets a 2xx response, and `false` for every non-2xx
response (401, 403, or anything else) and for every transport failure. -/
theorem checkBucketAccess_failClosed (ext : External) (e b : String)
    (creds : AWSCredentials) (cfg : S3EndpointConfig) (r : S3Response) (m : String) :
    (checkBucketAccess ext e b creds cfg (.response r) = true ↔ respOk r = true) ∧
    checkBucketAccess ext e b creds cfg (.failure m) = false := by
  constructor
  · cases hok : respOk r
    · have herr := s3RequestErr ext e b ("") creds cfg
        { method := "HEAD", queryParams := [] } r hok
      unfold checkBucketAccess
      rw [herr]
      dsimp only
      split <;> (try split) <;> simp
    · obtain ⟨v, hv⟩ := s3RequestOkExists ext e b ("") creds cfg
        { method := "HEAD", queryParams := [] } r hok
      unfold checkBucketAccess
      rw [hv]
  · unfold checkBucketAccess
    rw [s3RequestFailure]
    dsimp only
    split <;> (try split) <;> rfl

/-! ## Claim C10: 204/no-body responses yield the empty-object value -/

/-- C10: a 2xx response with status 204 or an absent body makes
`s3Request` return the empty-object value; consequently
`downloadObjectAsString` returns that object (which is neither a string
value nor null) and `objectExists` returns `true`. -/
theorem s3Request_emptyObject (ext : External) (e b k : String)
    (creds : AWSCredentials) (cfg : S3EndpointConfig) (opts : S3RequestOptions)
    (r : S3Response) (hok : respOk r = true) (hbody : r.status = 204 ∨ r.hasBody = false) :
    s3Request ext e b k creds cfg opts (.response r) = .ok .emptyObj ∧
    downloadObjectAsString ext e b k creds cfg (.response r) = .ok (some .emptyObj) ∧
    objectExists ext e b k creds cfg (.response r) = .ok true ∧
    (∀ s, JsValue.emptyObj ≠ JsValue.str s) ∧
    some JsValue.emptyObj ≠ (none : Option JsValue) := by
  have hcond : (decide (r.status = 204) || !r.hasBody) = true := by
    rcases hbody with h | h <;> simp [h]
  have hreq : ∀ (o : S3RequestOptions),
      s3Request ext e b k creds cfg o (.response r) = .ok .emptyObj := by
    intro o
    simp [s3Request, hok, hcond]
  refine ⟨hreq opts, ?_, ?_, ?_, ?_⟩
  · unfold downloadObjectAsString
    rw [hreq _]
  · unfold objectExists
    rw [hreq _]
  · intro s
    exact fun h => JsValue.noConfusion h
  · exact fun h => Option.noConfusion h

/-- C10 witness: the theorem applied to a concrete 204 (no body) response. -/
theorem s3Request_emptyObject_witness :
    s3Request ext0 ep0 ("b") ("k") creds0 cfg0 { method := "HEAD" } (.response resp204) =
      .ok .emptyObj ∧
    downloadObjectAsString ext0 ep0 ("b") ("k") creds0 cfg0 (.response resp204) =
      .ok (some .emptyObj) ∧
    objectExists ext0 ep0 ("b") ("k") creds0 cfg0 (.response resp204) = .ok true := by
  have h := s3Request_emptyObject ext0 ep0 ("b") ("k") creds0 cfg0 { method := "HEAD" }
    resp204 (by decide) (Or.inr (by decide))
  exact ⟨h.1, h.2.1, h.2.2.1⟩

/-! ## Claim C2: `objectExists` classification -/

/-- C2 (amended): `objectExists` returns `true` on any 2xx response and
`false` on every 404/`NoSuchKey` response; any other failure propagates
unless the composed error message happens to contain the text
`File not found`, in which case it is also swallowed into `false` — the
classification is a substring match on the message, not a structural
check. -/
theorem objectExists_classification (ext : External) (e b k : String)
    (creds : AWSCredentials) (cfg : S3EndpointConfig) (r : S3Response) (m : String) :
    (respOk r = true → objectExists ext e b k creds cfg (.response r) = .ok true) ∧
    (respOk r = false → r.status = 404 → (s3ErrorCodeMsg ext r.bodyText).1 = "NoSuchKey" →
      objectExists ext e b k creds cfg (.response r) = .ok false) ∧
    (respOk r = false → containsSub ("File not found") (s3ThrownMessage ext r) = false →
      objectExists ext e b k creds cfg (.response r) = .error (s3ThrownMessage ext r)) ∧
    (respOk r = false → containsSub ("File not found") (s3ThrownMessage ext r) = true →
      objectExists ext e b k creds cfg (.response r) = .ok false) ∧
    (containsSub ("File not found") m = false →
      objectExists ext e b k creds cfg (.failure m) = .error m) ∧
    (containsSub ("File not found") m = true →
      objectExists ext e b k creds cfg (.failure m) = .ok false) := by
  refine ⟨?_, ?_, ?_, ?_, ?_, ?_⟩
  · intro hok
    obtain ⟨v, hv⟩ := s3RequestOkExists ext e b k creds cfg { method := "HEAD" } r hok
    unfold objectExists
    rw [hv]
  · intro hok hst hcode
    unfold objectExists
    rw [s3RequestErr ext e b k creds cfg _ r hok]
    dsimp only
    rw [s3ThrownMessage404 ext r hst hcode, notFoundMsgContains]
    simp
  · intro hok hcf
    unfold objectExists
    rw [s3RequestErr ext e b k creds cfg _ r hok]
    dsimp only
    rw [hcf]
    simp
  · intro hok hcf
    unfold objectExists
    rw [s3RequestErr ext e b k creds cfg _ r hok]
    dsimp only
    rw [hcf]
    simp
  · intro hm
    unfold objectExists
    rw [s3RequestFailure]
    dsimp only
    rw [hm]
    simp
  · intro hm
    unfold objectExists
    rw [s3RequestFailure]
    dsimp only
    rw [hm]
    simp

/-- C2 counterexample: a 500 response whose vendor message contains the
text `File not found` makes `objectExists` return `false` instead of
propagating, so the claim that every non-not-found failure propagates
fails on the code. -/
theorem objectExists_swallows_other_errors :
    respOk c2Resp = false ∧ c2Resp.status ≠ 404 ∧
    objectExists ext0 ep0 ("b") ("k") creds0 cfg0 (.response c2Resp) = .ok false := by
  decide

/-- C2 witness: the amended theorem applied to a concrete 404 `NoSuchKey`
response. -/
theorem objectExists_classification_witness :
    objectExists ext0 ep0 ("b") ("k") creds0 cfg0 (.response resp404) = .ok false :=
  (objectExists_classification ext0 ep0 ("b") ("k") creds0 cfg0 resp404 ("")).2.1
    (by decide) (by decide) (by decide)

/-! ## Claim C3: downloads return null for not-found -/

/-- C3 (amended): both download operations map a 404/`NoSuchKey` outcome
to a null result and re-throw other errors unchanged — except that any
error whose composed message contains the text `File not found` is also
mapped to null, because the catch tests the message, not the status. -/
theorem download_null_on_notFound (ext : External) (e b k : String)
    (creds : AWSCredentials) (cfg : S3EndpointConfig) (r : S3Response) (m : String) :
    (respOk r = false → r.status = 404 → (s3ErrorCodeMsg ext r.bodyText).1 = "NoSuchKey" →
      downloadObjectAsString ext e b k creds cfg (.response r) = .ok none ∧
      downloadObjectAsBuffer ext e b k creds cfg (.response r) = .ok none) ∧
    (respOk r = false → containsSub ("File not found") (s3ThrownMessage ext r) = false →
      downloadObjectAsString ext e b k creds cfg (.response r) =
        .error (s3ThrownMessage ext r) ∧
      downloadObjectAsBuffer ext e b k creds cfg (.response r) =
        .error (s3ThrownMessage ext r)) ∧
    (containsSub ("File not found") m = false →
      downloadObjectAsString ext e b k creds cfg (.failure m) = .error m ∧
      downloadObjectAsBuffer ext e b k creds cfg (.failure m) = .error m) ∧
    (containsSub ("File not found") m = true →
      downloadObjectAsString ext e b k creds cfg (.failure m) = .ok none ∧
      downloadObjectAsBuffer ext e b k creds cfg (.failure m) = .ok none) := by
  refine ⟨?_, ?_, ?_, ?_⟩
  · intro hok hst hcode
    have hmsg := s3ThrownMessage404 ext r hst hcode
    constructor
    · unfold downloadObjectAsString
      rw [s3RequestErr ext e b k creds cfg _ r hok]
      dsimp only
      rw [hmsg, notFoundMsgContains]
      simp
    · unfold downloadObjectAsBuffer
      rw [s3RequestErr ext e b k creds cfg _ r hok]
      dsimp only
      rw [hmsg, notFoundMsgContains]
      simp
  · intro hok hcf
    constructor
    · unfold downloadObjectAsString
      rw [s3RequestErr ext e b k creds cfg _ r hok]
      dsimp only
      rw [hcf]
      simp
    · unfold downloadObjectAsBuffer
      rw [s3RequestErr ext e b k creds cfg _ r hok]
      dsimp only
      rw [hcf]
      simp
  · intro hm
    constructor
    · unfold downloadObjectAsString
      rw [s3RequestFailure]
      dsimp only
      rw [hm]
      simp
    · unfold downloadObjectAsBuffer
      rw [s3RequestFailure]
      dsimp only
      rw [hm]
      simp
  · intro hm
    constructor
    · unfold downloadObjectAsString
      rw [s3RequestFailure]
      dsimp only
      rw [hm]
      simp
    · unfold downloadObjectAsBuffer
      rw [s3RequestFailure]
      dsimp only
      rw [hm]
      simp

/-- C3 counterexample: a 403 response whose vendor message contains the
text `File not found` is swallowed into a null result by both download
operations instead of being re-thrown, so the claim that every other error
is re-thrown unchanged fails on the code. -/
theorem download_swallows_other_errors :
    respOk c3Resp = false ∧ c3Resp.status ≠ 404 ∧
    downloadObjectAsString ext0 ep0 ("b") ("k") creds0 cfg0 (.response c3Resp) = .ok none ∧
    downloadObjectAsBuffer ext0 ep0 ("b") ("k") creds0 cfg0 (.response c3Resp) = .ok none := by
  decide

/-- C3 witness: the amended theorem applied to a concrete 404 `NoSuchKey`
response. -/
theorem download_null_on_notFound_witness :
    downloadObjectAsString ext0 ep0 ("b") ("k") creds0 cfg0 (.response resp404) = .ok none ∧
    downloadObjectAsBuffer ext0 ep0 ("b") ("k") creds0 cfg0 (.response resp404) = .ok none :=
  (download_null_on_notFound ext0 ep0 ("b") ("k") creds0 cfg0 resp404 ("")).1
    (by decide) (by decide) (by decide)

/-! ## Claim C5: `deleteObject` and absent targets -/

/-- C5 (amended): `deleteObject` completes without throwing exactly when
the backend reports success (as S3-compatible backends do when deleting an
absent key, answering 204); it has no catch of its own, so a backend that
answers 404 with code `NoSuchKey` makes it throw the `File not found`
error rather than treating absence as success. -/
theorem deleteObject_propagates (ext : External) (e b k : String)
    (creds : AWSCredentials) (cfg : S3EndpointConfig) (r : S3Response) :
    (respOk r = true → deleteObject ext e b k creds cfg (.response r) = .ok ()) ∧
    (respOk r = false → r.status = 404 → (s3ErrorCodeMsg ext r.bodyText).1 = "NoSuchKey" →
      deleteObject ext e b k creds cfg (.response r) =
        .error ("File not found: " ++ (s3ErrorCodeMsg ext r.bodyText).2)) ∧
    (respOk r = false →
      deleteObject ext e b k creds cfg (.response r) = .error (s3ThrownMessage ext r)) := by
  refine ⟨?_, ?_, ?_⟩
  · intro hok
    obtain ⟨v, hv⟩ := s3RequestOkExists ext e b k creds cfg { method := "DELETE" } r hok
    unfold deleteObject
    rw [hv]
  · intro hok hst hcode
    unfold deleteObject
    rw [s3RequestErr ext e b k creds cfg _ r hok]
    dsimp only
    rw [s3ThrownMessage404 ext r hst hcode]
  · intro hok
    unfold deleteObject
    rw [s3RequestErr ext e b k creds cfg _ r hok]

/-- C5 counterexample: on the concrete 404 `NoSuchKey` response — the
backend saying the target is absent — `deleteObject` throws instead of
completing, so the claim that absence is a success outcome fails on the
code. -/
theorem deleteObject_throws_on_404 :
    resp404.status = 404 ∧ (s3ErrorCodeMsg ext0 resp404.bodyText).1 = "NoSuchKey" ∧
    deleteObject ext0 ep0 ("b") ("k") creds0 cfg0 (.response resp404) =
      .error ("File not found: The specified key does not exist.") := by
  decide

/-- C5 witness: the amended theorem applied to a concrete 204 response. -/
theorem deleteObject_propagates_witness :
    deleteObject ext0 ep0 ("b") ("k") creds0 cfg0 (.response resp204) = .ok () :=
  (deleteObject_propagates ext0 ep0 ("b") ("k") creds0 cfg0 resp204).1 (by decide)

/-! ## Claim C7: canonical query string ordering -/

/-- C7 (amended): the canonical query string sorts the raw (pre-encoding)
names and values by the runtime collation (`localeCompare`) rather than
byte-wise on the encoded pairs; because the modelled collation is a total
order, two inputs holding the same parameters in different orders still
canonicalize to the identical string, and the sorted list is sorted under
the query comparator. -/
theorem createCanonicalQueryString_perm (l₁ l₂ : List (String × String))
    (h : l₁.Perm l₂) :
    createCanonicalQueryString l₁ = createCanonicalQueryString l₂ ∧
    (stableSort qpLe l₁).Pairwise (fun a b => qpLe a b = true) := by
  constructor
  · unfold createCanonicalQueryString
    rw [stableSort_eq_of_perm qpLe qpLeTrans qpLeTotal qpLeAntisym h]
  · exact stableSort_pairwise qpLe qpLeTrans qpLeTotal l₁

/-- C7 counterexample: on `{B: 2, a: 1}` the source orders `a` before `B`
(locale collation compares case-insensitively first), while the byte-wise
ordering of the claim puts `B` (code 66) before `a` (code 97); the two
canonical strings differ. -/
theorem createCanonicalQueryString_not_bytewise :
    createCanonicalQueryString [("B", "2"), ("a", "1")] = "a=1&B=2" ∧
    specByteQueryString [("B", "2"), ("a", "1")] = "B=2&a=1" ∧
    createCanonicalQueryString [("B", "2"), ("a", "1")] ≠
      specByteQueryString [("B", "2"), ("a", "1")] := by
  decide

/-- C7 witness: the amended theorem applied to a concrete two-entry
parameter mapping and its reversal. -/
theorem createCanonicalQueryString_perm_witness :
    createCanonicalQueryString [("list-type", "2"), ("marker", "m1")] =
      createCanonicalQueryString [("marker", "m1"), ("list-type", "2")] :=
  (createCanonicalQueryString_perm _ _
    (List.Perm.swap ("marker", "m1") ("list-type", "2") [])).1

/-! ## Claim C8: canonical headers under re-ordering and re-casing -/

/-- C8 (amended): canonicalizing two header mappings that normalize
(lower-cased names, trimmed and collapsed values) to permutations of each
other yields identical canonical header strings and signed-header lists,
provided the lower-cased names are pairwise distinct — the documented
header invariant. Without that proviso the sort ties on equal names and
stability makes the output depend on input order. -/
theorem createCanonicalHeaders_perm (h₁ h₂ : List (String × String))
    (hperm : (h₁.map normalizeHeaderPair).Perm (h₂.map normalizeHeaderPair))
    (hnd : ((h₁.map normalizeHeaderPair).map Prod.fst).Nodup) :
    createCanonicalHeaders h₁ = createCanonicalHeaders h₂ := by
  unfold createCanonicalHeaders
  rw [stableSort_eq_of_perm_keyed hdrLe Prod.fst hdrLeTrans hdrLeTotal hdrLeKeyAntisym
    hperm hnd]

/-- C8 counterexample: the mapping `{A: 1, a: 2}` (two distinct record
keys that lower-case to the same name) and its re-ordering canonicalize to
different header strings, so the claim fails on the code for mappings
whose canonicalized names collide. -/
theorem createCanonicalHeaders_reorder_sensitive :
    ([("a", "2"), ("A", "1")] : List (String × String)).Perm [("A", "1"), ("a", "2")] ∧
    createCanonicalHeaders [("A", "1"), ("a", "2")] ≠
      createCanonicalHeaders [("a", "2"), ("A", "1")] := by
  constructor
  · exact List.Perm.swap ("A", "1") ("a", "2") []
  · decide

/-- C8 witness: the amended theorem applied to a re-ordered, re-cased copy
of a concrete header mapping (with value whitespace to normalize). -/
theorem createCanonicalHeaders_perm_witness :
    createCanonicalHeaders [("Host", "example.com"), ("X-Amz-Date", "20240101T000000Z")] =
      createCanonicalHeaders [("x-amz-date", " 20240101T000000Z "), ("HOST", "example.com")] :=
  createCanonicalHeaders_perm _ _ (by decide) (by decide)

/-! ## Claim C9: addressing style and URL construction -/

/-- `takeWhile` consumes exactly a satisfying segment up to a failing
element. -/
theorem takeWhileAppendCons (p : Char → Bool) (a : List Char) (c : Char) (b : List Char)
    (ha : ∀ x ∈ a, p x = true) (hc : p c = false) : (a ++ c :: b).takeWhile p = a := by
  induction a with
  | nil => simp [List.takeWhile_cons, hc]
  | cons y ys ih =>
    have hy : p y = true := ha y (List.mem_cons_self y ys)
    simp [List.takeWhile_cons, hy,
      ih (fun x hx => ha x (List.mem_cons_of_mem y hx))]

/-- `dropWhile` drops exactly a satisfying segment up to a failing
element. -/
theorem dropWhileAppendCons (p : Char → Bool) (a : List Char) (c : Char) (b : List Char)
    (ha : ∀ x ∈ a, p x = true) (hc : p c = false) : (a ++ c :: b).dropWhile p = c :: b := by
  induction a with
  | nil => simp [List.dropWhile_cons, hc]
  | cons y ys ih =>
    have hy : p y = true := ha y (List.mem_cons_self y ys)
    simp [List.dropWhile_cons, hy,
      ih (fun x hx => ha x (List.mem_cons_of_mem y hx))]

/-- `parseUrl` recovers scheme, host and pathname from any string whose
characters decompose as `scheme ++ "://" ++ host ++ "/" ++ rest` with no
colon in the scheme and no colon or slash in the host. -/
theorem parseUrlStructured (s sch host : String) (rest : List Char)
    (hdata : s.data = sch.data ++ (':' :: '/' :: '/' :: (host.data ++ ('/' :: rest))))
    (hsc : ':' ∉ sch.data) (hhc : ':' ∉ host.data) (hhs : '/' ∉ host.data) :
    parseUrl s =
      { scheme := sch, host := host, pathname := String.mk ('/' :: rest),
        searchParams := [] } := by
  have hpSch : ∀ x ∈ sch.data, (!(x = ':') : Bool) = true := by
    intro x hx
    have hxne : x ≠ ':' := fun he => hsc (he ▸ hx)
    simp [hxne]
  have hpHost : ∀ x ∈ host.data, (!(x = '/') : Bool) = true := by
    intro x hx
    have hxne : x ≠ '/' := fun he => hhs (he ▸ hx)
    simp [hxne]
  have hcColon : (!(':' = ':') : Bool) = false := by simp
  have hcSlash : (!('/' = '/') : Bool) = false := by simp
  unfold parseUrl
  rw [hdata]
  dsimp only
  rw [takeWhileAppendCons _ sch.data ':' _ hpSch hcColon,
    dropWhileAppendCons _ sch.data ':' _ hpSch hcColon]
  simp only [List.drop_succ_cons, List.drop_zero]
  rw [takeWhileAppendCons _ host.data '/' rest hpHost hcSlash,
    dropWhileAppendCons _ host.data '/' rest hpHost hcSlash]

/-- C9 (amended): the request URL is built path-style `endpoint/bucket/key`
exactly when the config flags path-style OR the endpoint host name contains
one of the two provider-specific substrings the source additionally tests,
and virtual-hosted `bucket.host/key` in every other case — the addressing
decision is not a function of the config flag alone. -/
theorem buildS3Url_addressing (sch host bucketName objectKey : String)
    (config : S3EndpointConfig)
    (hsc : ':' ∉ sch.data) (hhc : ':' ∉ host.data) (hhs : '/' ∉ host.data) :
    buildS3Url (sch ++ "://" ++ host) bucketName objectKey config =
      (if usePathStyle config (sch ++ "://" ++ host) then
        { scheme := sch, host := host,
          pathname := "/" ++ (bucketName ++ "/" ++ objectKey), searchParams := [] }
      else
        { scheme := sch, host := bucketName ++ "." ++ host,
          pathname := "/" ++ objectKey, searchParams := [] }) := by
  have hslash : ∀ (x : String), String.mk ('/' :: x.data) = "/" ++ x := by
    intro x
    apply String.ext
    simp [String.data_append]
  have hd1 : ("://" : String).data = [':', '/', '/'] := rfl
  have hd2 : ("/" : String).data = ['/'] := rfl
  unfold buildS3Url
  split
  · rw [parseUrlStructured _ sch host (bucketName ++ "/" ++ objectKey).data ?_ hsc hhc hhs]
    · rw [hslash]
    · simp [String.data_append, List.append_assoc, hd1, hd2]
  · dsimp only
    rw [parseUrlStructured _ sch host objectKey.data ?_ hsc hhc hhs]
    · dsimp only
      rw [hslash]
    · simp [String.data_append, List.append_assoc, hd1, hd2]

/-- C9 counterexample: with the path-style flag off, a DigitalOcean Spaces
endpoint is still addressed path-style (the code additionally sniffs the
endpoint host string), so the claim that the decision depends only on the
config flag fails on the code. -/
theorem buildS3Url_sniffs_endpoint :
    c9Cfg.forcePathStyle = false ∧
    buildS3Url ("https://nyc3.digitaloceanspaces.com") ("mybucket") ("data.txt") c9Cfg =
      { scheme := "https", host := "nyc3.digitaloceanspaces.com",
        pathname := "/mybucket/data.txt", searchParams := [] } ∧
    buildS3Url ("https://nyc3.digitaloceanspaces.com") ("mybucket") ("data.txt") c9Cfg ≠
      { scheme := "https", host := "mybucket.nyc3.digitaloceanspaces.com",
        pathname := "/data.txt", searchParams := [] } := by
  decide

/-- C9 witness: the amended theorem applied at a concrete endpoint and
configuration. -/
theorem buildS3Url_addressing_witness :
    buildS3Url ("https" ++ "://" ++ "s3.us-east-1.amazonaws.com") ("b") ("k") cfg0 =
      (if usePathStyle cfg0 ("https" ++ "://" ++ "s3.us-east-1.amazonaws.com") then
        { scheme := "https", host := "s3.us-east-1.amazonaws.com",
          pathname := "/" ++ (("b" : String) ++ "/" ++ "k"), searchParams := [] }
      else
        { scheme := "https", host := ("b" : String) ++ "." ++ "s3.us-east-1.amazonaws.com",
          pathname := "/" ++ ("k" : String), searchParams := [] }) :=
  buildS3Url_addressing ("https") ("s3.us-east-1.amazonaws.com") ("b") ("k") cfg0
    (by decide) (by decide) (by decide)
